import Mathlib

/-!
Verification of the fssh repository against its natural-language
specification.

The Go sources are shallowly embedded as executable Lean definitions.
Conventions used throughout:

* Go byte slices are `List Nat` (each entry is a byte value `< 256`);
  a `nil` slice is the empty list.
* Go `time.Time` values are modelled by their Unix-seconds value as `Int`;
  the zero value `time.Time{}` is modelled by the constant `timeZero`
  (it lies before every realistic clock reading, which is all the code
  ever compares against).
* Cryptographic primitives supplied by the Go standard library and
  `golang.org/x/crypto` (HMAC-SHA1/256/512, PBKDF2, AES-GCM) are not
  re-implemented bit for bit; they enter the embedding as explicit
  function parameters (an environment record), so every theorem below
  quantifies over all possible behaviours of those primitives.
  All repository-level logic (cache checks, verification windows,
  control flow, error propagation) is translated directly from the
  Go sources.
-/

namespace fssh

/-- Byte strings: Go `[]byte` as a list of byte values. -/
abbrev Bytes := List Nat

/-- Unix-seconds model of Go `time.Time{}` (the zero time).  Every clock
value the program actually observes is nonnegative, hence strictly after
this instant. -/
def timeZero : Int := 0

namespace otp

/-! ### TOTP engine — src/internal/otp/totp.go -/

/-- Hash-algorithm selector: the three `hash.Hash` constructors the
`switch` statement in `Generate` can pick
(`sha1.New`, `sha256.New`, `sha512.New`). -/
inductive HashAlg where
  | sha1
  | sha256
  | sha512
deriving DecidableEq, Repr

/-- Family of HMAC functions, one per selectable hash algorithm:
`hmacAlg alg key message` is the digest of Go
`hmac.New(hashFunc, key); mac.Write(message); mac.Sum(nil)` where
`hashFunc` corresponds to `alg`.  Kept abstract: theorems quantify over
it. -/
abbrev HmacFamily := HashAlg → Bytes → Bytes → Bytes

/-- Algorithm selection `switch` at the top of `Generate`
(totp.go lines 35-45): `"SHA1"`, `"SHA256"`, `"SHA512"` select the
matching hash, every other string falls into `default:` which selects
`sha1.New`. -/
def selectHashFunc (algorithm : String) : HashAlg :=
  if algorithm = "SHA1" then .sha1
  else if algorithm = "SHA256" then .sha256
  else if algorithm = "SHA512" then .sha512
  else .sha1

/-- Go `uint64(counter)` for an `int64` counter: two's-complement
reinterpretation, i.e. reduction modulo `2^64`. -/
def counterToUint64 (counter : Int) : Nat :=
  (Int.emod counter (2 ^ 64)).toNat

/-- Go `binary.BigEndian.PutUint64(counterBytes, u)`: the eight
big-endian bytes of `u`. -/
def putUint64BE (u : Nat) : Bytes :=
  [ (u >>> 56) % 256, (u >>> 48) % 256, (u >>> 40) % 256, (u >>> 32) % 256,
    (u >>> 24) % 256, (u >>> 16) % 256, (u >>> 8) % 256, u % 256 ]

/-- Go `binary.BigEndian.Uint32(hs[offset:offset+4])`.  Out-of-range
reads default to `0`; for the three real digest lengths (20/32/64 bytes)
`offset+4` never exceeds the digest length, so the default is never
used there. -/
def beUint32At (hs : Bytes) (off : Nat) : Nat :=
  (hs.getD off 0) <<< 24 |||
  (hs.getD (off + 1) 0) <<< 16 |||
  (hs.getD (off + 2) 0) <<< 8 |||
  hs.getD (off + 3) 0

/-- Go `fmt.Sprintf("%0*d", digits, code)`: decimal rendering of `code`
left-padded with zeros to width `digits`. -/
def sprintfPad (digits : Nat) (code : Nat) : String :=
  let s := Nat.repr code
  String.mk (List.replicate (digits - s.length) (Char.ofNat 48)) ++ s

/-- Embedding of `Generate(seed, counter, algorithm, digits)` from
src/internal/otp/totp.go lines 33-63 (HOTP per RFC 4226): select the
HMAC algorithm (unknown names default to SHA-1), MAC the 8-byte
big-endian counter, dynamically truncate, reduce modulo `10^digits`, and
left-zero-pad.  The HMAC itself is the abstract parameter `hmacAlg`. -/
def Generate (hmacAlg : HmacFamily) (seed : Bytes) (counter : Int)
    (algorithm : String) (digits : Nat) : String :=
  let hashFunc := selectHashFunc algorithm
  let counterBytes := putUint64BE (counterToUint64 counter)
  let hs := hmacAlg hashFunc seed counterBytes
  let offset := (hs.getLastD 0) &&& 0x0f
  let truncatedHash := beUint32At hs offset &&& 0x7fffffff
  let code := truncatedHash % 10 ^ digits
  sprintfPad digits code

/-- Embedding of `Verify(seed, userCode, algorithm, digits, period)` from
src/internal/otp/totp.go lines 17-29.  The Go function reads
`time.Now().Unix()` internally; the embedding takes that reading as the
explicit argument `now`.  `counter = now / period` uses Go `int64`
division (truncation toward zero), and the loop accepts the code if it
matches `Generate` at any offset in `-1, 0, 1`. -/
def Verify (hmacAlg : HmacFamily) (seed : Bytes) (userCode : String)
    (algorithm : String) (digits : Nat) (period : Int) (now : Int) : Bool :=
  let counter := Int.tdiv now period
  ([-1, 0, 1] : List Int).any fun offset =>
    userCode = Generate hmacAlg seed (counter + offset) algorithm digits

/-! ### Recovery codes — src/internal/otp/recovery.go -/

/-- Abstract model of `hex.EncodeToString(sha256.Sum256([]byte(code)))`:
the hex digest of a string.  Kept abstract; theorems quantify over it. -/
abbrev Sha256Hex := String → String

/-- Linear scan of `VerifyRecoveryCode`
(`for i, h := range hashes { if h == codeHash { return true, i } }`),
carrying the current index. -/
def findHashIdx (codeHash : String) : List String → Int → Bool × Int
  | [], _ => (false, -1)
  | h :: rest, i =>
    if h = codeHash then (true, i) else findHashIdx codeHash rest (i + 1)

/-- Embedding of `VerifyRecoveryCode(code, hashes)` from
src/internal/otp/recovery.go lines 67-78: hash the entered code, scan
the stored hash list, return whether it matched and at which index
(`(false, -1)` if absent).  The function neither removes the matched
hash nor returns an updated list. -/
def VerifyRecoveryCode (sha256hex : Sha256Hex) (code : String)
    (hashes : List String) : Bool × Int :=
  findHashIdx (sha256hex code) hashes 0

end otp

namespace crypt

/-! ### HKDF — src/internal/crypt/crypt.go lines 11-28.
HMAC-SHA256 itself (`hmac.New(sha256.New, k)`) is the abstract
parameter `hmacSha256 : key → message → digest`. -/

/-- Expansion loop of `HKDF` (`for len(res) < length`): each round MACs
`t ++ info ++ [ctr]` under `prkSum`, appends the digest to `res`, and
increments `ctr`.  `fuel` bounds the rounds; with any digest of at least
one byte, `length` rounds suffice (the real digests have 32 bytes). -/
def hkdfLoop (hmacSha256 : Bytes → Bytes → Bytes) (prkSum info : Bytes)
    (length : Nat) : Nat → Bytes → Bytes → Nat → Bytes
  | 0, _, res, _ => res
  | fuel + 1, t, res, ctr =>
    if length ≤ res.length then res
    else
      let t2 := hmacSha256 prkSum (t ++ info ++ [ctr % 256])
      hkdfLoop hmacSha256 prkSum info length fuel t2 (res ++ t2) (ctr + 1)

/-- Embedding of `crypt.HKDF(master, salt, info, length)`: extract
`prkSum = HMAC(salt, master)`, then run the expansion loop and truncate
to `length` bytes (`res[:length]`).  The loop's fuel equals `length`,
which suffices whenever the digests are nonempty (real digests have 32
bytes). -/
def HKDF (hmacSha256 : Bytes → Bytes → Bytes) (master salt info : Bytes)
    (length : Nat) : Bytes :=
  let prkSum := hmacSha256 salt master
  (hkdfLoop hmacSha256 prkSum info length length [] [] 1).take length

end crypt

namespace auth

/-! ### OTPProvider — the `auth` package (src/unnamed/part_007).
The provider is a state machine over its cache fields; each Go method
becomes a function from the pre-state (plus an environment of prompt
outcomes and external crypto primitives) to a result and the
post-state.  The `sync.Mutex` serialises the methods; the embedding
models one complete method execution. -/

/-- Errors surfaced by the provider, following the messages in the Go
code: `ioFailure` for prompt-read failures, `authFailed` for
`密码错误或配置文件损坏` / `验证码错误或已过期`. -/
inductive UErr where
  | ioFailure
  | authFailed
deriving DecidableEq, Repr

/-- Fields of `otp.Config` the provider reads.  The base64-encoded
fields (`SeedSalt`, `SeedNonce`, `EncryptedSeed`, `MasterKeySalt`) are
carried in already-decoded form; their decode steps always succeed on a
well-formed config and none of the verified claims concerns a decode
failure. -/
structure Config where
  algorithm : String
  digits : Nat
  period : Int
  seedSalt : Bytes
  seedNonce : Bytes
  encryptedSeed : Bytes
  masterKeySalt : Bytes
  seedUnlockTTLSeconds : Int
  recoveryCodesHash : List String
deriving DecidableEq, Repr

/-- Cache state of an `OTPProvider` (part_007 lines 20-33): the cached
seed and master key with their expiry instants, the master-key TTL, and
the loaded config.  Go `nil` byte slices are the empty list. -/
structure ProviderState where
  cachedSeed : Bytes
  seedExpiry : Int
  cachedMasterKey : Bytes
  masterKeyExpiry : Int
  masterKeyTTL : Int
  config : Config
deriving DecidableEq, Repr

/-- Environment of one provider-method execution: outcomes of the
interactive prompts (`none` = read error) and the external crypto
primitives (PBKDF2-SHA256 at 100000 iterations, AES-GCM open, the HMAC
families).  All are abstract; theorems quantify over them. -/
structure Env where
  promptPassword : Option String
  promptCode : Option String
  pbkdf2Key : String → Bytes → Bytes
  decryptAEAD : Bytes → Bytes → Bytes → Option Bytes
  hmacAlg : otp.HmacFamily
  hmacSha256 : Bytes → Bytes → Bytes

/-- Cache-miss path of `unlockSeed` (part_007 lines 65-115): prompt for
the password, derive the decryption key with PBKDF2 over `seedSalt`,
open `encryptedSeed`; on success store the seed in the cache with
expiry `now + ttl` when `ttl > 0`, or expiry `now` (the current
instant) when `ttl <= 0`. -/
def unlockSeedMiss (env : Env) (now : Int) (st : ProviderState) :
    Except UErr Bytes × ProviderState :=
  match env.promptPassword with
  | none => (.error .ioFailure, st)
  | some password =>
    let encKey := env.pbkdf2Key password st.config.seedSalt
    match env.decryptAEAD encKey st.config.seedNonce st.config.encryptedSeed with
    | none => (.error .authFailed, st)
    | some seed =>
      let ttl := st.config.seedUnlockTTLSeconds
      ( .ok seed,
        { st with
          cachedSeed := seed,
          seedExpiry := if ttl > 0 then now + ttl else now } )

/-- Embedding of `OTPProvider.unlockSeed` (part_007 lines 52-116): if
the configured TTL is positive and the current instant is strictly
before `seedExpiry`, return the cached seed unchanged; otherwise run
the password-unlock path.  `now` is the `time.Now()` reading. -/
def unlockSeed (env : Env) (now : Int) (st : ProviderState) :
    Except UErr Bytes × ProviderState :=
  if st.config.seedUnlockTTLSeconds > 0 ∧ now < st.seedExpiry then
    (.ok st.cachedSeed, st)
  else
    unlockSeedMiss env now st

/-- HKDF domain-separation label `[]byte("fssh-master-key-v1")`. -/
def fsshMasterKeyInfo : Bytes :=
  (String.toList "fssh-master-key-v1").map Char.toNat

/-- Embedding of `OTPProvider.UnlockMasterKey` (part_007 lines 123-181):
return the cached master key when its TTL is positive and unexpired;
otherwise unlock the seed (cache-aware), prompt for a TOTP code, verify
it with `otp.Verify`, and on success derive the master key with
`crypt.HKDF(seed, masterKeySalt, "fssh-master-key-v1", 32)` and cache
it when `masterKeyTTL > 0`.  A failed verification returns an
authentication error with the state left as `unlockSeed` produced it. -/
def UnlockMasterKey (env : Env) (now : Int) (st : ProviderState) :
    Except UErr Bytes × ProviderState :=
  if st.masterKeyTTL > 0 ∧ now < st.masterKeyExpiry then
    (.ok st.cachedMasterKey, st)
  else
    match unlockSeed env now st with
    | (.error e, st1) => (.error e, st1)
    | (.ok seed, st1) =>
      match env.promptCode with
      | none => (.error .ioFailure, st1)
      | some code =>
        if otp.Verify env.hmacAlg seed code st1.config.algorithm
            st1.config.digits st1.config.period now then
          let masterKey :=
            crypt.HKDF env.hmacSha256 seed st1.config.masterKeySalt
              fsshMasterKeyInfo 32
          if st1.masterKeyTTL > 0 then
            ( .ok masterKey,
              { st1 with
                cachedMasterKey := masterKey,
                masterKeyExpiry := now + st1.masterKeyTTL } )
          else
            (.ok masterKey, st1)
        else
          (.error .authFailed, st1)

/-- Embedding of `secureClear(data)` (part_007 lines 220-225): every
byte of the buffer is overwritten with zero. -/
def secureClear (data : Bytes) : Bytes :=
  data.map fun _ => 0

/-- Embedding of `OTPProvider.ClearCache` (part_007 lines 195-216).  The
Go method zeroes the backing arrays of both cached secrets in place,
releases them (sets the fields to `nil`), and resets both expiries to
the zero time.  The pure model returns the new provider state together
with the pair of released (zeroed) buffers, so the zeroing of the
backing memory stays observable. -/
def ClearCache (st : ProviderState) : ProviderState × (Bytes × Bytes) :=
  let releasedSeed := secureClear st.cachedSeed
  let releasedMasterKey := secureClear st.cachedMasterKey
  ( { st with
      cachedSeed := [],
      cachedMasterKey := [],
      seedExpiry := timeZero,
      masterKeyExpiry := timeZero },
    (releasedSeed, releasedMasterKey) )

end auth

namespace store

/-- Modelled from the spec: the repository's `fssh/internal/store`
package is referenced throughout src/ but its source file is not under
src/.  Per spec §4.2 a stored record decrypts (`Load`) to the PKCS#8
private key together with its metadata; this structure carries the two
parts the callers in src/ use: `rec.Alias` and `rec.PKCS8DER`. -/
structure Record where
  keyAlias : String
  pkcs8der : Bytes
deriving DecidableEq, Repr

end store

namespace agentserver

/-! ### Agent protocol server — src/unnamed/part_010 and
src/internal/agent/server.go. -/

/-- Parsed content of one on-disk `*.enc` file as the agent reads it
(`store.EncryptedFile`): alias, fingerprint, and the public-key blob.
`pubKey = none` models `m.PubKey == ""` as well as a blob that fails
base64 decoding or `ssh.ParsePublicKey` (all three are skipped
identically by `List` and never looked at by `Sign`). -/
structure EncryptedFile where
  keyAlias : String
  fingerprint : String
  pubKey : Option Bytes
deriving DecidableEq, Repr

/-- Wire-level key entry (`xagent.Key`): the marshalled public-key blob
and the comment (the human alias).  The `Format` field of the Go struct
is determined by the blob and is omitted. -/
structure AgentKey where
  blob : Bytes
  comment : String
deriving DecidableEq, Repr

/-- Transient in-memory signer obtained from
`ssh.NewSignerFromKey(x509.ParsePKCS8PrivateKey(der))`: its marshalled
public key and its signing function (`signer.Sign(nil, data)`).  Kept
abstract through the environment. -/
structure Signer where
  pubBlob : Bytes
  signRaw : Bytes → Bytes

/-- Wire requests of the SSH agent protocol served by both server
variants.  `sign` carries the marshalled public key the client names
and the challenge to sign; `add` carries the private key (as the signer
it yields) and its comment. -/
inductive Request where
  | list
  | sign (pubBlob : Bytes) (data : Bytes)
  | add (key : Signer) (comment : String)
  | remove (blob : Bytes)
  | removeAll
  | lock (passphrase : Bytes)
  | unlock (passphrase : Bytes)
  | extension (extType : String) (contents : Bytes)

/-- Wire responses: a key list, a signature blob, a bare success, an
error with its message, or raw extension bytes. -/
inductive Response where
  | keys (ks : List AgentKey)
  | signature (sig : Bytes)
  | ok
  | err (msg : String)
  | raw (b : Bytes)
deriving DecidableEq, Repr

/-- Environment of one request served by the secure agent: the on-disk
store contents as re-scanned by `loadMetas` (one entry per readable,
well-formed `.enc` file, in directory order), the outcome of the active
provider's `UnlockMasterKey()` for this request, and the store/crypto
collaborators.  `loadDecrypted alias mk` is `store.LoadDecryptedRecord`
(modelled from the spec §4.2, the `store` source being absent from
src/): it re-derives the per-record key from the master key and opens
the ciphertext, returning `none` on a wrong key or corrupted record.
`parseSigner` is `x509.ParsePKCS8PrivateKey` composed with
`ssh.NewSignerFromKey`. -/
structure AgentEnv where
  metas : List EncryptedFile
  unlock : Except auth.UErr Bytes
  loadDecrypted : String → Bytes → Option store.Record
  parseSigner : Bytes → Option Signer
  fingerprintOf : Bytes → String

/-- Key listing of `secureAgent.List` (part_010 lines 72-95): every
meta with a usable public key becomes an `xagent.Key` whose comment is
the alias. -/
def secureList (metas : List EncryptedFile) : List AgentKey :=
  metas.filterMap fun m => m.pubKey.map fun pb => ⟨pb, m.keyAlias⟩

/-- Alias resolution loop of `secureAgent.Sign` (part_010 lines
106-112): the first meta whose fingerprint matches wins; no match
leaves the alias empty. -/
def resolveAlias (metas : List EncryptedFile) (fp : String) : String :=
  ((metas.find? fun m => m.fingerprint = fp).map fun m => m.keyAlias).getD ""

/-- Embedding of `secureAgent.Sign` (part_010 lines 97-142): compute
the fingerprint of the requested key (`ssh.FingerprintSHA256`), resolve
it against a fresh metadata scan (`key not found` when absent), unlock
the master key through the provider (`auth failed` on any unlock error,
wrapping `认证失败`), load and decrypt the one record, parse a transient
signer, and sign the challenge. -/
def secureSign (env : AgentEnv) (pubBlob : Bytes) (data : Bytes) : Response :=
  let fp := env.fingerprintOf pubBlob
  let a := resolveAlias env.metas fp
  if a = "" then .err "key not found"
  else
    match env.unlock with
    | .error _ => .err "auth failed"
    | .ok mk =>
      match env.loadDecrypted a mk with
      | none => .err "load failed"
      | some r =>
        match env.parseSigner r.pkcs8der with
        | none => .err "parse failed"
        | some s => .signature (s.signRaw data)

/-- Wire bitmask advertised by `secureAgent.Extension` for
`ext-info-c`: `SignatureFlagRsaSha256 | SignatureFlagRsaSha512 = 2 | 4`
as four big-endian bytes. -/
def extInfoFlags : Bytes := [0, 0, 0, 6]

/-- Embedding of the secure (per-signature unlock) agent's handling of
one wire request, covering both `secureAgent` variants in part_010
(their `Add`/`Remove`/`RemoveAll`/`Lock`/`Unlock` methods are
identical): `Add` and `Remove` return the explicit error
`unsupported`; `RemoveAll`, `Lock` and `Unlock` return `nil` without
touching any state; unknown extensions fail, `ext-info-c` returns the
RSA-SHA2 flag bytes.  The agent keeps no per-request mutable state, so
the handler is a pure function of the environment. -/
def secureHandle (env : AgentEnv) : Request → Response
  | .list => .keys (secureList env.metas)
  | .sign pb data => secureSign env pb data
  | .add _ _ => .err "unsupported"
  | .remove _ => .err "unsupported"
  | .removeAll => .ok
  | .lock _ => .ok
  | .unlock _ => .ok
  | .extension t _ =>
    if t = "ext-info-c" then .raw extInfoFlags else .err "unsupported extension"

/-- State of `xagent.NewKeyring()` (the convenience variant's agent,
modelled from the documented behaviour of the external
`golang.org/x/crypto/ssh/agent` keyring): the held private keys with
their comments, and the lock state. -/
structure KeyringState where
  keys : List (Signer × String)
  locked : Bool
  lockPassphrase : Bytes

/-- One wire request against the library keyring (modelled from the
documented behaviour of `golang.org/x/crypto/ssh/agent.Keyring`): when
unlocked, `List` lists the held keys, `Add` inserts a key and succeeds,
`Remove`/`RemoveAll` delete and succeed, `Lock` locks under the given
passphrase, and `Sign` signs with the held key matching the requested
blob; when locked, `List` returns an empty list and the mutating and
signing operations fail; extensions are always
`ErrExtensionUnsupported`. -/
def keyringHandle (st : KeyringState) :
    Request → Response × KeyringState
  | .list =>
    if st.locked then (.keys [], st)
    else (.keys (st.keys.map fun ks => ⟨ks.1.pubBlob, ks.2⟩), st)
  | .sign pb data =>
    if st.locked then (.err "agent locked", st)
    else
      match st.keys.find? fun ks => ks.1.pubBlob = pb with
      | none => (.err "key not found", st)
      | some ks => (.signature (ks.1.signRaw data), st)
  | .add k comment =>
    if st.locked then (.err "agent locked", st)
    else (.ok, { st with keys := st.keys ++ [(k, comment)] })
  | .remove blob =>
    if st.locked then (.err "agent locked", st)
    else (.ok, { st with keys := st.keys.filter fun ks => ks.1.pubBlob ≠ blob })
  | .removeAll =>
    if st.locked then (.err "agent locked", st) else (.ok, { st with keys := [] })
  | .lock p =>
    if st.locked then (.err "agent locked", st)
    else (.ok, { st with locked := true, lockPassphrase := p })
  | .unlock p =>
    if ¬ st.locked then (.err "agent not locked", st)
    else if p = st.lockPassphrase then (.ok, { st with locked := false })
    else (.err "incorrect passphrase", st)
  | .extension _ _ => (.err "extension unsupported", st)

/-- Startup of the convenience variant
(src/internal/agent/server.go lines 64-83): after one upfront
`UnlockMasterKey()`, every `.enc` file is decrypted with the obtained
master key, parsed, and added to a fresh keyring with the record's
alias as comment; files that fail to decrypt or parse are silently
skipped (`continue`). -/
def convenienceInit (env : AgentEnv) (mk : Bytes) : KeyringState :=
  { keys := env.metas.filterMap fun m =>
      match env.loadDecrypted m.keyAlias mk with
      | none => none
      | some r =>
        match env.parseSigner r.pkcs8der with
        | none => none
        | some s => some (s, r.keyAlias),
    locked := false,
    lockPassphrase := [] }

end agentserver

namespace mainCLI

/-! ### Rekey — `cmdRekey` in src/cmd/fssh/main.go lines 247-266. -/

/-- On-disk world `cmdRekey` operates on: the `.enc` files of the key
store (alias paired with the file's encrypted content, in directory
order) and the master key held by the keychain. -/
structure RekeyWorld where
  files : List (String × Bytes)
  masterKey : Bytes
deriving DecidableEq, Repr

/-- Collaborators of `cmdRekey`.  `loadDecrypted name content mk` is
`store.LoadDecryptedRecord` and `sealRecord r k` is the new encrypted file
content `store.SaveEncryptedRecord` writes (fresh salt and nonce
included); both are modelled from the spec (§4.2), the `store` package
source being absent from src/.  `newKey` is the 32-byte random
replacement master key. -/
structure RekeyEnv where
  loadDecrypted : String → Bytes → Bytes → Option store.Record
  sealRecord : store.Record → Bytes → Bytes
  newKey : Bytes

/-- Rekey loop of `cmdRekey` (main.go lines 257-263): process the
`.enc` files in directory order; each record is decrypted under the old
key and immediately re-saved under the new key.  A record that fails to
decrypt hits `fatal(err)`, which exits the process: the files already
re-saved keep their new content, the remaining files keep their old
content, and the flag reports the failure. -/
def rekeyLoop (env : RekeyEnv) (old : Bytes) :
    List (String × Bytes) → List (String × Bytes) →
    List (String × Bytes) × Bool
  | done, [] => (done, true)
  | done, (name, enc) :: rest =>
    match env.loadDecrypted name enc old with
    | none => (done ++ (name, enc) :: rest, false)
    | some r =>
      rekeyLoop env old (done ++ [(name, env.sealRecord r env.newKey)]) rest

/-- Embedding of `cmdRekey` (main.go lines 247-266): load the old
master key, generate `newKey`, re-encrypt every record in directory
order, and only after the loop finishes store the new master key in the
keychain (`keychain.StoreMasterKey(newk, true)`).  The boolean reports
whether the command completed; on a mid-loop decrypt failure the
process exits with the partially rewritten store and the old master key
still in the keychain. -/
def cmdRekey (env : RekeyEnv) (w : RekeyWorld) : RekeyWorld × Bool :=
  match rekeyLoop env w.masterKey [] w.files with
  | (files2, true) => ({ files := files2, masterKey := env.newKey }, true)
  | (files2, false) => ({ files := files2, masterKey := w.masterKey }, false)

end mainCLI

/-! ### Concrete sample instantiations used by witnesses and
counterexamples.  The abstract crypto parameters get small executable
stand-ins; the theorems above them quantify over all instantiations, so
these only serve to evaluate the embedded code on closed inputs. -/

/-- Sample HMAC family: digest is the reversed message padded with
twelve zero bytes (20 bytes for an 8-byte counter block, the SHA-1
digest length).  Distinct counters give distinct digests. -/
def sampleHmac : otp.HmacFamily := fun _ _ msg => msg.reverse ++ List.replicate 12 0

/-- Sample HMAC family returning an all-zero 20-byte digest: every
counter yields the TOTP code `000000`. -/
def zeroHmac : otp.HmacFamily := fun _ _ _ => List.replicate 20 0

/-- Sample OTP config: SHA-1, 6 digits, 30-second period, 60-second
seed TTL, with the already-decoded crypto fields empty. -/
def sampleConfig : auth.Config :=
  { algorithm := "SHA1", digits := 6, period := 30,
    seedSalt := [], seedNonce := [], encryptedSeed := [], masterKeySalt := [],
    seedUnlockTTLSeconds := 60, recoveryCodesHash := [] }

/-- Sample provider state: empty caches, both expiries at the zero
time, master-key TTL 60 seconds. -/
def sampleState : auth.ProviderState :=
  { cachedSeed := [], seedExpiry := timeZero,
    cachedMasterKey := [], masterKeyExpiry := timeZero,
    masterKeyTTL := 60, config := sampleConfig }

/-- Sample environment: prompts succeed (password `pw`, code
`111111`), AES-GCM opens to the seed `[7]`, and the TOTP HMAC is the
all-zero digest — so every generated code is `000000` and the entered
code `111111` fails verification. -/
def sampleEnv : auth.Env :=
  { promptPassword := some "pw", promptCode := some "111111",
    pbkdf2Key := fun _ _ => [], decryptAEAD := fun _ _ _ => some [7],
    hmacAlg := zeroHmac, hmacSha256 := fun _ _ => [] }

/-! ## Theorems -/

/-- C10: for every seed, counter and digit count, `Generate` called with
an algorithm string other than `"SHA1"`, `"SHA256"` or `"SHA512"`
returns exactly the same code as `Generate` with algorithm `"SHA1"`:
unknown algorithm names silently fall back to SHA-1 instead of
producing an error. -/
theorem C10_unknown_algorithm_falls_back_to_sha1
    (hmacAlg : otp.HmacFamily) (seed : Bytes) (counter : Int)
    (digits : Nat) (algorithm : String)
    (h1 : algorithm ≠ "SHA1") (h2 : algorithm ≠ "SHA256")
    (h3 : algorithm ≠ "SHA512") :
    otp.Generate hmacAlg seed counter algorithm digits =
      otp.Generate hmacAlg seed counter "SHA1" digits := by
  unfold otp.Generate otp.selectHashFunc
  simp [h1, h2, h3]

/-- Closed instance of C10: the unknown algorithm name `MD5` generates
the SHA-1 code. -/
theorem C10_witness :
    otp.Generate sampleHmac [3] 5 "MD5" 6 =
      otp.Generate sampleHmac [3] 5 "SHA1" 6 :=
  C10_unknown_algorithm_falls_back_to_sha1 sampleHmac [3] 5 6 "MD5"
    (by decide) (by decide) (by decide)

/-- C6: `Verify(seed, code, algorithm, digits, period)` (at clock
reading `now`) returns true exactly when the code equals `Generate` at
some counter in the window `counter-1, counter, counter+1` with
`counter = now / period`; in particular a code that differs from the
three window codes — e.g. one valid only at `counter-2` or `counter+2`
— is rejected. -/
theorem C6_verify_window
    (hmacAlg : otp.HmacFamily) (seed : Bytes) (userCode algorithm : String)
    (digits : Nat) (period now : Int) :
    (otp.Verify hmacAlg seed userCode algorithm digits period now = true ↔
      ∃ c : Int,
        (c = Int.tdiv now period - 1 ∨ c = Int.tdiv now period ∨
         c = Int.tdiv now period + 1) ∧
        userCode = otp.Generate hmacAlg seed c algorithm digits) ∧
    (userCode ≠ otp.Generate hmacAlg seed (Int.tdiv now period - 1) algorithm digits →
     userCode ≠ otp.Generate hmacAlg seed (Int.tdiv now period) algorithm digits →
     userCode ≠ otp.Generate hmacAlg seed (Int.tdiv now period + 1) algorithm digits →
     otp.Verify hmacAlg seed userCode algorithm digits period now = false) := by
  constructor
  · unfold otp.Verify
    simp only [List.any_cons, List.any_nil, Bool.or_eq_true, Bool.or_false,
      decide_eq_true_eq]
    constructor
    · rintro (h | h | h)
      · exact ⟨Int.tdiv now period - 1, Or.inl rfl, by
          simpa [Int.sub_eq_add_neg] using h⟩
      · exact ⟨Int.tdiv now period, Or.inr (Or.inl rfl), by simpa using h⟩
      · exact ⟨Int.tdiv now period + 1, Or.inr (Or.inr rfl), by simpa using h⟩
    · rintro ⟨c, hc | hc | hc, hcode⟩ <;> subst hc
      · exact Or.inl (by simpa [Int.sub_eq_add_neg] using hcode)
      · exact Or.inr (Or.inl (by simpa using hcode))
      · exact Or.inr (Or.inr (by simpa using hcode))
  · intro h1 h2 h3
    unfold otp.Verify
    simp only [List.any_cons, List.any_nil, Bool.or_false,
      Bool.or_eq_false_iff, decide_eq_false_iff_not]
    refine ⟨?_, ?_, ?_⟩
    · simpa [Int.sub_eq_add_neg] using h1
    · simpa using h2
    · simpa using h3

/-- Closed instance of C6: with the sample HMAC family at `now = 0`,
`period = 30` (so `counter = 0`), the code generated at counter `2` is
distinct from the three window codes and `Verify` rejects it. -/
theorem C6_witness :
    otp.Verify sampleHmac [] (otp.Generate sampleHmac [] 2 "SHA1" 6) "SHA1" 6 30 0
      = false :=
  (C6_verify_window sampleHmac [] (otp.Generate sampleHmac [] 2 "SHA1" 6)
      "SHA1" 6 30 0).2 (by decide) (by decide) (by decide)

/-! Helper lemmas about the shapes of `unlockSeed` outcomes, shared by
the cache theorems below. -/

/-- Successful runs of the miss path produce exactly the state update
written at part_007 lines 102-113: the seed is cached and the expiry is
`now + ttl` for a positive TTL, `now` otherwise. -/
theorem unlockSeedMiss_ok (env : auth.Env) (now : Int) (st : auth.ProviderState)
    (seed : Bytes) (st1 : auth.ProviderState)
    (h : auth.unlockSeedMiss env now st = (.ok seed, st1)) :
    st1 = { st with
            cachedSeed := seed,
            seedExpiry := if st.config.seedUnlockTTLSeconds > 0
                          then now + st.config.seedUnlockTTLSeconds else now } := by
  unfold auth.unlockSeedMiss at h
  split at h
  · simp at h
  · dsimp only at h
    split at h
    · simp at h
    · simp only [Prod.mk.injEq, Except.ok.injEq] at h
      obtain ⟨hseed, hst⟩ := h
      subst hseed
      exact hst.symm

/-- Failing runs of the miss path leave the provider state untouched. -/
theorem unlockSeedMiss_error (env : auth.Env) (now : Int)
    (st : auth.ProviderState) (e : auth.UErr) (st1 : auth.ProviderState)
    (h : auth.unlockSeedMiss env now st = (.error e, st1)) : st1 = st := by
  unfold auth.unlockSeedMiss at h
  split at h
  · simp only [Prod.mk.injEq] at h
    exact h.2.symm
  · dsimp only at h
    split at h
    · simp only [Prod.mk.injEq] at h
      exact h.2.symm
    · simp at h

/-- Cache-hit shape of `unlockSeed`: positive TTL and an unexpired
entry return the cached seed without touching the state. -/
theorem unlockSeed_hit (env : auth.Env) (now : Int) (st : auth.ProviderState)
    (httl : 0 < st.config.seedUnlockTTLSeconds) (hexp : now < st.seedExpiry) :
    auth.unlockSeed env now st = (.ok st.cachedSeed, st) := by
  unfold auth.unlockSeed
  exact if_pos ⟨httl, hexp⟩

/-- Outside the cache-hit condition, `unlockSeed` is exactly the miss
path. -/
theorem unlockSeed_not_hit (env : auth.Env) (now : Int) (st : auth.ProviderState)
    (hc : ¬ (0 < st.config.seedUnlockTTLSeconds ∧ now < st.seedExpiry)) :
    auth.unlockSeed env now st = auth.unlockSeedMiss env now st := by
  unfold auth.unlockSeed
  exact if_neg hc

/-- Every `unlockSeed` outcome leaves the master-key cache fields, the
TTL and the config unchanged; a failing outcome leaves the whole state
unchanged. -/
theorem unlockSeed_preserves_master_fields (env : auth.Env) (now : Int)
    (st : auth.ProviderState) (out : Except auth.UErr Bytes)
    (st1 : auth.ProviderState)
    (h : auth.unlockSeed env now st = (out, st1)) :
    st1.cachedMasterKey = st.cachedMasterKey ∧
    st1.masterKeyExpiry = st.masterKeyExpiry ∧
    st1.config = st.config ∧ st1.masterKeyTTL = st.masterKeyTTL := by
  unfold auth.unlockSeed at h
  split at h
  · simp only [Prod.mk.injEq] at h
    obtain ⟨-, hst⟩ := h
    subst hst
    exact ⟨rfl, rfl, rfl, rfl⟩
  · cases out with
    | error e =>
      have he := unlockSeedMiss_error env now st e st1 h
      subst he
      exact ⟨rfl, rfl, rfl, rfl⟩
    | ok seed =>
      have he := unlockSeedMiss_ok env now st seed st1 h
      subst he
      exact ⟨rfl, rfl, rfl, rfl⟩

/-- C9: after a successful `unlockSeed` under `SeedUnlockTTLSeconds = 0`
the decrypted seed is still stored in `cachedSeed` (retained in memory,
not zeroed) while `seedExpiry` is set to the current instant, so every
subsequent call treats the cache as expired and runs the prompting miss
path again. -/
theorem C9_ttl_zero_retains_seed (env : auth.Env) (now : Int)
    (st : auth.ProviderState) (seed : Bytes) (st1 : auth.ProviderState)
    (h0 : st.config.seedUnlockTTLSeconds = 0)
    (h : auth.unlockSeed env now st = (.ok seed, st1)) :
    st1.cachedSeed = seed ∧ st1.seedExpiry = now ∧
    ∀ env2 now2, auth.unlockSeed env2 now2 st1 = auth.unlockSeedMiss env2 now2 st1 := by
  rw [unlockSeed_not_hit env now st (by simp [h0])] at h
  have h1 := unlockSeedMiss_ok env now st seed st1 h
  subst h1
  refine ⟨rfl, by simp [h0], fun env2 now2 => ?_⟩
  exact unlockSeed_not_hit env2 now2 _ (by simp [h0])

/-- Provider state with the seed-cache TTL configured to zero. -/
def sampleStateTTL0 : auth.ProviderState :=
  { sampleState with config := { sampleConfig with seedUnlockTTLSeconds := 0 } }

/-- Closed instance of C9: under TTL 0, a successful unlock at time 100
leaves the decrypted seed `[7]` in `cachedSeed` with `seedExpiry = 100`. -/
theorem C9_witness :
    (auth.unlockSeed sampleEnv 100 sampleStateTTL0).2.cachedSeed = [7] ∧
    (auth.unlockSeed sampleEnv 100 sampleStateTTL0).2.seedExpiry = 100 := by
  have h := C9_ttl_zero_retains_seed sampleEnv 100 sampleStateTTL0 [7]
      ((auth.unlockSeed sampleEnv 100 sampleStateTTL0).2) (by decide) rfl
  exact ⟨h.1, h.2.1⟩

/-- C5: with `seedCacheTTL = T > 0`, a second `UnlockSeed` within `T`
seconds of a successful unlocking first call is served from the cache —
it returns the same seed, leaves the state unchanged, and its outcome
does not depend on any prompt input; a call made more than `T` seconds
after the first runs the prompting miss path again; with a zero or
negative TTL every call runs the miss path (the cache entry is always
reported expired); and the miss path consults the password prompt (a
failing prompt fails the call). -/
theorem C5_cache_ttl (env env2 : auth.Env) (now0 now1 : Int)
    (st : auth.ProviderState) (seed : Bytes) (st1 : auth.ProviderState)
    (hmiss : ¬ now0 < st.seedExpiry)
    (hFirst : auth.unlockSeed env now0 st = (.ok seed, st1)) :
    (0 < st.config.seedUnlockTTLSeconds →
      now1 < now0 + st.config.seedUnlockTTLSeconds →
      auth.unlockSeed env2 now1 st1 = (.ok seed, st1) ∧
      ∀ env3, auth.unlockSeed env3 now1 st1 = auth.unlockSeed env2 now1 st1) ∧
    (0 < st.config.seedUnlockTTLSeconds →
      now0 + st.config.seedUnlockTTLSeconds < now1 →
      auth.unlockSeed env2 now1 st1 = auth.unlockSeedMiss env2 now1 st1) ∧
    (st.config.seedUnlockTTLSeconds ≤ 0 →
      auth.unlockSeed env2 now1 st1 = auth.unlockSeedMiss env2 now1 st1) ∧
    (∀ envX nowX stX, envX.promptPassword = none →
      auth.unlockSeedMiss envX nowX stX = (.error .ioFailure, stX)) := by
  rw [unlockSeed_not_hit env now0 st (fun hc => hmiss hc.2)] at hFirst
  have h1 := unlockSeedMiss_ok env now0 st seed st1 hFirst
  have hcfg : st1.config = st.config := by rw [h1]
  have hcached : st1.cachedSeed = seed := by rw [h1]
  have hexp1 : st1.seedExpiry =
      if st.config.seedUnlockTTLSeconds > 0
      then now0 + st.config.seedUnlockTTLSeconds else now0 := by rw [h1]
  refine ⟨?_, ?_, ?_, ?_⟩
  · intro hT hwithin
    have hT1 : 0 < st1.config.seedUnlockTTLSeconds := by rw [hcfg]; exact hT
    have hexp : now1 < st1.seedExpiry := by
      rw [hexp1, if_pos hT]; exact hwithin
    have hhit := unlockSeed_hit env2 now1 st1 hT1 hexp
    rw [hcached] at hhit
    refine ⟨hhit, fun env3 => ?_⟩
    have hhit3 := unlockSeed_hit env3 now1 st1 hT1 hexp
    rw [hcached] at hhit3
    rw [hhit, hhit3]
  · intro hT hafter
    refine unlockSeed_not_hit env2 now1 st1 (fun hc => ?_)
    have h2 := hc.2
    rw [hexp1, if_pos hT] at h2
    exact absurd h2 (not_lt.mpr (le_of_lt hafter))
  · intro hT
    refine unlockSeed_not_hit env2 now1 st1 (fun hc => ?_)
    have h2 := hc.1
    rw [hcfg] at h2
    exact absurd h2 (not_lt.mpr hT)
  · intro envX nowX stX hX
    unfold auth.unlockSeedMiss
    rw [hX]

/-- Post-state of the first sample unlock: seed `[7]` cached until
`70 = 10 + 60`. -/
def sampleState1 : auth.ProviderState :=
  { sampleState with cachedSeed := [7], seedExpiry := 70 }

/-- Closed instance of C5: after a first unlock at time 10 under TTL
60, a second call at time 20 returns the cached seed `[7]` with the
state unchanged. -/
theorem C5_witness :
    auth.unlockSeed sampleEnv 20 sampleState1 = (.ok [7], sampleState1) := by
  have h := C5_cache_ttl sampleEnv sampleEnv 10 20 sampleState [7] sampleState1
      (by decide) rfl
  exact (h.1 (by decide) (by decide)).1

/-- C7: `ClearCache` releases both cached secrets as fully zeroed
buffers (every byte overwritten with zero, lengths preserved), empties
both cache fields, resets both expiries to the zero time — an instant
no nonnegative clock reading is before, so the next `unlockSeed` runs
the miss path and the master-key cache check fails — and is a total
function of the provider state, hence also defined when nothing is
cached. -/
theorem C7_clear_cache (st : auth.ProviderState) :
    (auth.ClearCache st).1.cachedSeed = [] ∧
    (auth.ClearCache st).1.cachedMasterKey = [] ∧
    (auth.ClearCache st).1.seedExpiry = timeZero ∧
    (auth.ClearCache st).1.masterKeyExpiry = timeZero ∧
    (auth.ClearCache st).2.1 = List.replicate st.cachedSeed.length 0 ∧
    (auth.ClearCache st).2.2 = List.replicate st.cachedMasterKey.length 0 ∧
    (∀ env now, 0 ≤ now →
      auth.unlockSeed env now (auth.ClearCache st).1 =
        auth.unlockSeedMiss env now (auth.ClearCache st).1) ∧
    (∀ now : Int, 0 ≤ now →
      ¬ (0 < (auth.ClearCache st).1.masterKeyTTL ∧
         now < (auth.ClearCache st).1.masterKeyExpiry)) := by
  refine ⟨rfl, rfl, rfl, rfl, ?_, ?_, ?_, ?_⟩
  · simp [auth.ClearCache, auth.secureClear, List.map_const']
  · simp [auth.ClearCache, auth.secureClear, List.map_const']
  · intro env now hnow
    refine unlockSeed_not_hit env now _ (fun hc => ?_)
    have : now < timeZero := hc.2
    exact absurd this (not_lt.mpr (by exact_mod_cast hnow))
  · intro now hnow hc
    have : now < timeZero := hc.2
    exact absurd this (not_lt.mpr (by exact_mod_cast hnow))

/-- Closed instance of C7: clearing the sample provider state (whose
caches are empty — nothing is cached) empties both fields and the next
unlock at time 5 runs the miss path. -/
theorem C7_witness :
    (auth.ClearCache sampleState).1.cachedSeed = [] ∧
    (auth.ClearCache sampleState).1.cachedMasterKey = [] ∧
    auth.unlockSeed sampleEnv 5 (auth.ClearCache sampleState).1 =
      auth.unlockSeedMiss sampleEnv 5 (auth.ClearCache sampleState).1 := by
  have h := C7_clear_cache sampleState
  exact ⟨h.1, h.2.1, h.2.2.2.2.2.2.1 sampleEnv 5 (by decide)⟩

/-- Failing runs of `unlockSeed` leave the provider state untouched. -/
theorem unlockSeed_error (env : auth.Env) (now : Int)
    (st : auth.ProviderState) (e : auth.UErr) (st1 : auth.ProviderState)
    (h : auth.unlockSeed env now st = (.error e, st1)) : st1 = st := by
  unfold auth.unlockSeed at h
  split at h
  · simp at h
  · exact unlockSeedMiss_error env now st e st1 h

/-- Runs of `unlockSeed` that start under the cache-hit condition leave
the provider state untouched. -/
theorem unlockSeed_hit_eq (env : auth.Env) (now : Int)
    (st : auth.ProviderState) (out : Except auth.UErr Bytes)
    (st1 : auth.ProviderState)
    (hc : 0 < st.config.seedUnlockTTLSeconds ∧ now < st.seedExpiry)
    (h : auth.unlockSeed env now st = (out, st1)) : st1 = st := by
  rw [unlockSeed_hit env now st hc.1 hc.2] at h
  simp only [Prod.mk.injEq] at h
  exact h.2.symm

/-- Amended C3: every failing `UnlockMasterKey` call (in particular one
whose entered TOTP code fails verification) returns an error and leaves
the master-key cache — cached value and expiry — exactly as before the
call; moreover, whenever the seed cache was valid at call time the
entire provider state is unchanged.  (The original claim is refuted by
`C3_counterexample`: when the seed cache was expired, a successful
password unlock inside the same call refreshes the seed cache, and that
refresh survives the TOTP failure.) -/
theorem C3_failed_code_preserves_master_cache (env : auth.Env) (now : Int)
    (st : auth.ProviderState) (e : auth.UErr) (st1 : auth.ProviderState)
    (h : auth.UnlockMasterKey env now st = (.error e, st1)) :
    st1.cachedMasterKey = st.cachedMasterKey ∧
    st1.masterKeyExpiry = st.masterKeyExpiry ∧
    (0 < st.config.seedUnlockTTLSeconds ∧ now < st.seedExpiry → st1 = st) := by
  unfold auth.UnlockMasterKey at h
  split at h
  · simp at h
  · split at h
    next e1 st2 heq =>
      simp only [Prod.mk.injEq, Except.error.injEq] at h
      obtain ⟨-, hst⟩ := h
      subst hst
      have he := unlockSeed_error env now st e1 st2 heq
      subst he
      exact ⟨rfl, rfl, fun _ => rfl⟩
    next seed st2 heq =>
      have hpres := unlockSeed_preserves_master_fields env now st (.ok seed) st2 heq
      have hhit : 0 < st.config.seedUnlockTTLSeconds ∧ now < st.seedExpiry → st2 = st :=
        fun hc => unlockSeed_hit_eq env now st (.ok seed) st2 hc heq
      split at h
      · simp only [Prod.mk.injEq] at h
        obtain ⟨-, hst⟩ := h
        subst hst
        exact ⟨hpres.1, hpres.2.1, hhit⟩
      · split at h
        · split at h
          · simp at h
          · simp at h
        · simp only [Prod.mk.injEq, Except.error.injEq] at h
          obtain ⟨-, hst⟩ := h
          subst hst
          exact ⟨hpres.1, hpres.2.1, hhit⟩

/-- Counterexample to C3 as stated: at time 100 the sample provider
(seed cache expired, TTL 60) performs a successful password unlock,
then the entered TOTP code `111111` fails verification.
`UnlockMasterKey` returns the authentication error, yet the seed cache
now differs from its state before the call: the decrypted seed `[7]`
was cached and the seed expiry advanced. -/
theorem C3_counterexample :
    (auth.UnlockMasterKey sampleEnv 100 sampleState).1 =
      Except.error auth.UErr.authFailed ∧
    (auth.UnlockMasterKey sampleEnv 100 sampleState).2.cachedSeed ≠
      sampleState.cachedSeed ∧
    (auth.UnlockMasterKey sampleEnv 100 sampleState).2.seedExpiry ≠
      sampleState.seedExpiry := by
  refine ⟨rfl, by decide, by decide⟩

/-- Closed instance of the amended C3: the failing call above leaves
the master-key cache fields unchanged. -/
theorem C3_witness :
    (auth.UnlockMasterKey sampleEnv 100 sampleState).2.cachedMasterKey =
      sampleState.cachedMasterKey ∧
    (auth.UnlockMasterKey sampleEnv 100 sampleState).2.masterKeyExpiry =
      sampleState.masterKeyExpiry := by
  have h := C3_failed_code_preserves_master_cache sampleEnv 100 sampleState
      auth.UErr.authFailed ((auth.UnlockMasterKey sampleEnv 100 sampleState).2) rfl
  exact ⟨h.1, h.2.1⟩

/-- Sample rekey collaborators: record `a` decrypts (to PKCS#8 bytes
`[10]`), every other record fails to decrypt; sealing appends the key
to the plaintext; the generated replacement master key is `[5]`. -/
def sampleRekeyEnv : mainCLI.RekeyEnv :=
  { loadDecrypted := fun name _ _ => if name = "a" then some ⟨"a", [10]⟩ else none,
    sealRecord := fun r k => r.pkcs8der ++ k,
    newKey := [5] }

/-- Sample store for rekey: two records in directory order, `a` before
`b`, with the keychain holding master key `[9]`. -/
def sampleWorld : mainCLI.RekeyWorld :=
  { files := [("a", [1]), ("b", [2])], masterKey := [9] }

/-- C1 evaluated at its failing input: rekeying a store whose record
`a` decrypts and whose record `b` does not aborts (the old master key
`[9]` stays in the keychain), yet the store is already modified —
record `a` has been re-encrypted under the never-persisted new key
before the failure on `b` was discovered.  This contradicts the claim
that no stored record is modified on any rekey error. -/
theorem C1_rekey_modifies_records_before_abort :
    (mainCLI.cmdRekey sampleRekeyEnv sampleWorld).2 = false ∧
    (mainCLI.cmdRekey sampleRekeyEnv sampleWorld).1.masterKey =
      sampleWorld.masterKey ∧
    (mainCLI.cmdRekey sampleRekeyEnv sampleWorld).1.files =
      [("a", [10, 5]), ("b", [2])] ∧
    (mainCLI.cmdRekey sampleRekeyEnv sampleWorld).1.files ≠ sampleWorld.files := by
  refine ⟨rfl, rfl, rfl, by decide⟩

/-- Sample signer for agent requests. -/
def sampleSigner : agentserver.Signer :=
  { pubBlob := [1, 2], signRaw := fun _ => [3] }

/-- Sample agent environment over an empty on-disk store. -/
def sampleAgentEnv : agentserver.AgentEnv :=
  { metas := [], unlock := .error .authFailed,
    loadDecrypted := fun _ _ => none, parseSigner := fun _ => none,
    fingerprintOf := fun _ => "" }

/-- Counterexample to C2 as stated: the agent's `RemoveAll` returns
success (`nil`) while having no effect, instead of the claimed explicit
`unsupported` error (part_010 line 228; likewise `Lock` and `Unlock`,
lines 229-230). -/
theorem C2_counterexample :
    agentserver.secureHandle sampleAgentEnv .removeAll = .ok ∧
    agentserver.Response.ok ≠ .err "unsupported" :=
  ⟨rfl, by decide⟩

/-- Amended C2: `Add` and `Remove` return the explicit `unsupported`
error, while `RemoveAll`, `Lock` and `Unlock` return success without
any effect (the handler is a pure function of the store environment:
no state exists for them to change). -/
theorem C2_add_remove_unsupported_rest_silent (env : agentserver.AgentEnv)
    (k : agentserver.Signer) (c : String) (blob p q : Bytes) :
    agentserver.secureHandle env (.add k c) = .err "unsupported" ∧
    agentserver.secureHandle env (.remove blob) = .err "unsupported" ∧
    agentserver.secureHandle env .removeAll = .ok ∧
    agentserver.secureHandle env (.lock p) = .ok ∧
    agentserver.secureHandle env (.unlock q) = .ok :=
  ⟨rfl, rfl, rfl, rfl, rfl⟩

/-- Counterexample to C8 as stated: for the same stored records (here
the empty store), an `Add` request is rejected with `unsupported` by
the secure per-signature variant but accepted by the convenience
variant's keyring — the two variants do not expose identical wire-level
behaviour on every request. -/
theorem C8_counterexample :
    agentserver.secureHandle sampleAgentEnv (.add sampleSigner "k") =
      .err "unsupported" ∧
    (agentserver.keyringHandle (agentserver.convenienceInit sampleAgentEnv [9])
        (.add sampleSigner "k")).1 = .ok ∧
    agentserver.Response.err "unsupported" ≠ .ok :=
  ⟨rfl, rfl, by decide⟩

/-- Auxiliary list identity behind the amended C8: over any store whose
records all decrypt and parse, with public-key metadata matching the
decrypted keys and aliases intact, the keyring built at convenience
startup lists exactly the keys the secure variant lists. -/
theorem convenienceKeys_eq_secureList
    (loadD : String → Bytes → Option store.Record)
    (parse : Bytes → Option agentserver.Signer) (mk : Bytes)
    (metas : List agentserver.EncryptedFile)
    (hwf : ∀ m ∈ metas, ∃ r s, loadD m.keyAlias mk = some r ∧
      parse r.pkcs8der = some s ∧ r.keyAlias = m.keyAlias ∧
      m.pubKey = some s.pubBlob) :
    (metas.filterMap fun m =>
      match loadD m.keyAlias mk with
      | none => none
      | some r =>
        match parse r.pkcs8der with
        | none => none
        | some s => some (s, r.keyAlias)).map
        (fun ks => (⟨ks.1.pubBlob, ks.2⟩ : agentserver.AgentKey)) =
      agentserver.secureList metas := by
  induction metas with
  | nil => rfl
  | cons m rest ih =>
    obtain ⟨r, s, h1, h2, h3, h4⟩ := hwf m (List.mem_cons_self ..)
    have ihr := ih fun x hx => hwf x (List.mem_cons_of_mem _ hx)
    simp only [agentserver.secureList, List.filterMap_cons, h1, h2, h3, h4,
      Option.map_some, List.map_cons] at ihr ⊢
    rw [ihr]
    rfl

/-- Amended C8: the secure and convenience variants agree on `List`
responses for any store whose records all decrypt and parse with
matching metadata, but they are not wire-equivalent on the remaining
operations: `Add` is rejected (`unsupported`) by the secure variant and
accepted by the convenience keyring. -/
theorem C8_list_agrees_add_differs (env : agentserver.AgentEnv) (mk : Bytes)
    (hwf : ∀ m ∈ env.metas, ∃ r s, env.loadDecrypted m.keyAlias mk = some r ∧
      env.parseSigner r.pkcs8der = some s ∧ r.keyAlias = m.keyAlias ∧
      m.pubKey = some s.pubBlob) :
    (agentserver.keyringHandle (agentserver.convenienceInit env mk) .list).1 =
      agentserver.secureHandle env .list ∧
    ∀ k c, agentserver.secureHandle env (.add k c) = .err "unsupported" ∧
      (agentserver.keyringHandle (agentserver.convenienceInit env mk)
          (.add k c)).1 = .ok := by
  constructor
  · show agentserver.Response.keys _ = .keys (agentserver.secureList env.metas)
    simp only [agentserver.convenienceInit]
    rw [convenienceKeys_eq_secureList env.loadDecrypted env.parseSigner mk
      env.metas hwf]
  · exact fun k c => ⟨rfl, rfl⟩

/-- Closed instance of the amended C8 at the empty store: the two
variants return the same (empty) `List` response. -/
theorem C8_witness :
    (agentserver.keyringHandle (agentserver.convenienceInit sampleAgentEnv [9])
        .list).1 = agentserver.secureHandle sampleAgentEnv .list :=
  (C8_list_agrees_add_differs sampleAgentEnv [9] (by simp [sampleAgentEnv])).1

/-- Sample stand-in for the SHA-256 hex digest of a recovery code. -/
def sampleHashFn : otp.Sha256Hex := fun s => s ++ "#"

/-- Sample stored recovery-code hash list (`Config.RecoveryCodesHash`)
for two generated codes. -/
def sampleHashes : List String :=
  [sampleHashFn "AAAA-BBBB-CCCC-DDDD", sampleHashFn "EEEE-FFFF-GGGG-HHHH"]

/-- C4 evaluated at its failing input: verifying a recovery code
succeeds at index 0, yet the matched hash is still present in the
stored list — `VerifyRecoveryCode` returns only `(Bool, Int)` and
nothing in the repository removes `hashes[i]` after a match — so the
identical second verification call returns `(true, 0)` again instead of
failing. -/
theorem C4_second_verification_still_succeeds :
    otp.VerifyRecoveryCode sampleHashFn "AAAA-BBBB-CCCC-DDDD" sampleHashes =
      (true, 0) ∧
    sampleHashes.get? 0 = some (sampleHashFn "AAAA-BBBB-CCCC-DDDD") ∧
    otp.VerifyRecoveryCode sampleHashFn "AAAA-BBBB-CCCC-DDDD" sampleHashes =
      (true, 0) :=
  ⟨rfl, rfl, rfl⟩

end fssh
